import Mathlib

/-!
Verification of the realtime relay server (Node.js sources) against its
natural-language specification.  The JavaScript functions are shallowly
embedded as executable Lean definitions: buffers become lists of byte
values, Float32 samples become rationals (idealised real arithmetic),
JavaScript Maps become association lists whose delete/set operations are
modelled by key-filtering, and asynchronous outcomes (the upstream
handshake, JSON parsing, fresh UUIDs, Date.now) become explicit
parameters.
-/

namespace RTS

/-! ## Audio codec utilities (src/utils/audioUtils.js) -/

/-- Decode a little-endian byte list into signed 16-bit samples, exactly as
the view `new Int16Array(buffer.buffer, buffer.byteOffset, buffer.byteLength / 2)`
does: pairs of bytes become one sample, and a trailing odd byte is dropped
because the fractional length `byteLength / 2` is truncated by ToIndex. -/
def bytesToSamples : List ℕ → List ℤ
  | lo :: hi :: rest =>
      (if lo + 256 * hi < 32768 then ((lo + 256 * hi : ℕ) : ℤ)
       else ((lo + 256 * hi : ℕ) : ℤ) - 65536) :: bytesToSamples rest
  | _ => []

/-- `pcm16ToFloat32` of audioUtils.js: each sample is normalised by
`int16Array[i] / (int16Array[i] < 0 ? 0x8000 : 0x7fff)`. -/
def pcm16ToFloat32 (pcm16Buffer : List ℕ) : List ℚ :=
  (bytesToSamples pcm16Buffer).map (fun (v : ℤ) =>
    if v < 0 then (v : ℚ) / 32768 else (v : ℚ) / 32767)

/-- JavaScript ToInt16 applied when storing into an `Int16Array`:
truncate toward zero, then wrap modulo 2^16 into the signed range. -/
def ratTruncate (x : ℚ) : ℤ := if x < 0 then ⌈x⌉ else ⌊x⌋

/-- Wrap an integer into the signed 16-bit range (the modular part of
ToInt16). -/
def wrap16 (n : ℤ) : ℤ := ((n + 32768) % 65536) - 32768

/-- Serialise signed 16-bit samples back to little-endian bytes, as
`Buffer.from(int16Array.buffer)` exposes them on a little-endian host. -/
def samplesToBytes : List ℤ → List ℕ
  | [] => []
  | v :: rest =>
      (v % 65536).toNat % 256 :: (v % 65536).toNat / 256 :: samplesToBytes rest

/-- `float32ToPcm16` of audioUtils.js: clamp each sample to [-1, 1] with
`Math.max(-1, Math.min(1, x))`, scale by `s < 0 ? 0x8000 : 0x7fff`, store
into an Int16Array (ToInt16), and emit the little-endian bytes. -/
def float32ToPcm16 (float32Array : List ℚ) : List ℕ :=
  samplesToBytes (float32Array.map (fun x =>
    let s := max (-1) (min 1 x)
    wrap16 (ratTruncate (if s < 0 then s * 32768 else s * 32767))))

/-- Math.round for nonnegative-use cases: round half toward positive
infinity, `⌊x + 1/2⌋`. -/
def jsRound (x : ℚ) : ℤ := ⌊x + 1 / 2⌋

/-- `resampleAudio` of audioUtils.js: identity when the rates coincide;
otherwise linear interpolation at `ratio = from/to`, producing
`Math.round(length / ratio)` samples; an out-of-range read (never reached
for positive rates) is modelled with default 0. -/
def resampleAudio (audioData : List ℚ) (originalSampleRate targetSampleRate : ℚ) :
    List ℚ :=
  if originalSampleRate = targetSampleRate then audioData
  else
    let ratio := originalSampleRate / targetSampleRate
    let newLength := (jsRound ((audioData.length : ℚ) / ratio)).toNat
    (List.range newLength).map (fun (i : ℕ) =>
      let indexOriginal := (i : ℚ) * ratio
      let index := ⌊indexOriginal⌋
      let fraction := indexOriginal - (index : ℚ)
      if index + 1 < (audioData.length : ℤ) then
        audioData.getD index.toNat 0 * (1 - fraction) +
          audioData.getD (index.toNat + 1) 0 * fraction
      else
        audioData.getD index.toNat 0)

/-- The specification's characterisation of resampling at unequal rates:
`round(length / (from/to))` output samples; an output sample whose
interpolation window fits is the linear interpolation of the two bracketing
input samples at position `i * (from/to)`; an output sample whose window
would read past the last input sample equals the LAST input sample. -/
def ResampleUnequalSpec (s : List ℚ) (fromRate toRate : ℚ) : Prop :=
  (resampleAudio s fromRate toRate).length =
    (jsRound ((s.length : ℚ) / (fromRate / toRate))).toNat ∧
  ∀ i : ℕ, i < (resampleAudio s fromRate toRate).length →
    (⌊(i : ℚ) * (fromRate / toRate)⌋ + 1 < (s.length : ℤ) →
      (resampleAudio s fromRate toRate).getD i 0 =
        s.getD (⌊(i : ℚ) * (fromRate / toRate)⌋).toNat 0 *
          (1 - ((i : ℚ) * (fromRate / toRate) -
            (⌊(i : ℚ) * (fromRate / toRate)⌋ : ℚ))) +
        s.getD ((⌊(i : ℚ) * (fromRate / toRate)⌋).toNat + 1) 0 *
          ((i : ℚ) * (fromRate / toRate) -
            (⌊(i : ℚ) * (fromRate / toRate)⌋ : ℚ))) ∧
    (¬ ⌊(i : ℚ) * (fromRate / toRate)⌋ + 1 < (s.length : ℤ) →
      (resampleAudio s fromRate toRate).getD i 0 = s.getD (s.length - 1) 0)

/-! ## JavaScript Map model: association lists with key-filtering delete -/

/-- First-match lookup, the semantics of `Map.get`. -/
def lookupA {α : Type} (k : String) : List (String × α) → Option α
  | [] => none
  | (k', v) :: rest => if k' = k then some v else lookupA k rest

/-- `Map.delete`: remove the entry with the given key (written as a
recursive filter so that it also erases key duplicates, which a JS Map
cannot hold anyway). -/
def eraseA {α : Type} (k : String) : List (String × α) → List (String × α)
  | [] => []
  | (k', v) :: rest =>
      if k' = k then eraseA k rest else (k', v) :: eraseA k rest

/-- `Map.set`: bind the key to the value (replacing any previous binding). -/
def insertA {α : Type} (k : String) (v : α) (l : List (String × α)) :
    List (String × α) :=
  (k, v) :: eraseA k l

/-! ## Data model -/

/-- readyState values of a WebSocket transport. -/
inductive WsReadyState
  | connecting
  | wsopen
  | closing
  | closed
deriving DecidableEq

/-- A protocol event: a JSON object with a `type` discriminator.  The
fields the relay inspects are modelled explicitly; `some` means the
corresponding property is present on the JSON object. -/
structure REvent where
  type : String
  eventId : Option String := none
  /-- `message.session.id` when a `session` object with an id is present. -/
  sessionObjId : Option String := none
  /-- `message.conversation.id` when a `conversation` object is present. -/
  conversationObjId : Option String := none
  /-- message text of a `message.error` object when one is present. -/
  errorObj : Option String := none
  /-- `code` of an error payload the server constructs. -/
  errCode : Option String := none
  /-- the remaining fields (audio payload etc.), carried opaquely. -/
  payload : String := ""
deriving DecidableEq

/-- Mutable per-session conversation state (sessionManager.js). -/
structure SessionState where
  sessionId : Option String := none
  conversationId : Option String := none
  isRecording : Bool := false
  isConnected : Bool := true
deriving DecidableEq

/-- A Session object of sessionManager.js.  `wsReady` is the readyState of
the owning client's socket (`session.ws`). -/
structure Session where
  id : String
  clientId : String
  openaiConnectionId : String
  wsReady : WsReadyState
  created : ℤ
  state : SessionState
deriving DecidableEq

/-- A record of the wsServer.js `clients` map. -/
structure ClientRecord where
  readyState : WsReadyState
  ip : String := ""
  connected : ℤ := 0
  lastPong : ℤ := 0
deriving DecidableEq

/-- A record of the openaiService.js `connections` map. -/
structure ConnRecord where
  clientId : String
  created : ℤ
deriving DecidableEq

/-- All server-side registries: wsServer's client map, sessionManager's two
session maps, openaiService's upstream-connection map. -/
structure ServerState where
  clients : List (String × ClientRecord) := []
  sessions : List (String × Session) := []
  clientToSession : List (String × String) := []
  connections : List (String × ConnRecord) := []
deriving DecidableEq

/-! ## Upstream connection manager (src/services/openaiService.js) -/

/-- `OpenAIService.createConnection`: the connection record is stored in
the map BEFORE the handshake is awaited; `opensInTime` says whether the
`open` event beat the 10 s timeout.  On timeout the promise rejects with
the timeout error, the catch block only logs and rethrows, and the record
is left in the map. -/
def createConnection (st : ServerState) (clientId connectionId : String)
    (now : ℤ) (opensInTime : Bool) : Except String String × ServerState :=
  let st1 := { st with
    connections := insertA connectionId ⟨clientId, now⟩ st.connections }
  if opensInTime then (Except.ok connectionId, st1)
  else (Except.error "Timeout ao conectar com OpenAI", st1)

/-- JavaScript truthiness of the `event_id` guard `!event.event_id`: true
when the property is absent or holds a falsy string value (the empty
string is the only falsy string). -/
def jsFalsyId : Option String → Bool
  | none => true
  | some s => decide (s = "")

/-- `OpenAIService.sendEvent`: unknown connection rejects; otherwise, if
`!event.event_id` (the field is absent or falsy, i.e. the empty string),
an identifier of the form `evt_<Date.now()>_<uuidv4().slice(0, 8)>` is
assigned by mutating the caller's object; the (mutated) event is
serialised and written, and its `event_id` is returned.  The result
carries the mutated/sent event and the returned identifier. -/
def sendEvent (st : ServerState) (connectionId : String) (event : REvent)
    (now : ℤ) (uuid : String) : Except String (REvent × String) :=
  match lookupA connectionId st.connections with
  | none => Except.error ("Conexão não encontrada: " ++ connectionId)
  | some _ =>
      let event1 :=
        if jsFalsyId event.eventId then
          { event with
            eventId := some ("evt_" ++ toString now ++ "_" ++ uuid.take 8) }
        else event
      Except.ok (event1, event1.eventId.getD "")

/-- `OpenAIService.closeConnection`: close the transport and drop the
record; a no-op when the id is unknown. -/
def closeConnection (st : ServerState) (connectionId : String) : ServerState :=
  match lookupA connectionId st.connections with
  | none => st
  | some _ => { st with connections := eraseA connectionId st.connections }

/-! ## Session registry (src/websocket/sessionManager.js) -/

/-- `SessionManager.getSession`. -/
def getSession (st : ServerState) (sessionId : String) : Option Session :=
  lookupA sessionId st.sessions

/-- `SessionManager.getClientSession`. -/
def getClientSession (st : ServerState) (clientId : String) : Option Session :=
  match lookupA clientId st.clientToSession with
  | some sessionId => lookupA sessionId st.sessions
  | none => none

/-- `SessionManager.createSession`.  `wsReady` is the state of the client
socket passed in; `sessionIdFresh`/`connIdFresh` are the uuids drawn, and
`opensInTime` resolves the upstream handshake race.  An existing client
entry short-circuits to the stored session; otherwise the upstream
connection is created, and only on success are the session maps updated. -/
def createSession (st : ServerState) (clientId : String)
    (wsReady : WsReadyState) (sessionIdFresh connIdFresh : String)
    (now : ℤ) (opensInTime : Bool) :
    Except String (Option Session) × ServerState :=
  match lookupA clientId st.clientToSession with
  | some existingSessionId =>
      (Except.ok (lookupA existingSessionId st.sessions), st)
  | none =>
      match createConnection st clientId connIdFresh now opensInTime with
      | (Except.error e, st1) => (Except.error e, st1)
      | (Except.ok openaiConnectionId, st1) =>
          let session : Session :=
            { id := sessionIdFresh
              clientId := clientId
              openaiConnectionId := openaiConnectionId
              wsReady := wsReady
              created := now
              state := {} }
          (Except.ok (some session),
           { st1 with
             sessions := insertA sessionIdFresh session st1.sessions
             clientToSession := insertA clientId sessionIdFresh st1.clientToSession })

/-- `SessionManager.updateSessionState`: a switch on `message.type`.  The
three special cases read a nested property; when the parent object is
absent the property access raises (modelled as `Except.error ()`), which
the caller catches. -/
def updateSessionState (session : Session) (message : REvent) :
    Except Unit Session :=
  match message.type with
  | "session.created" =>
      match message.sessionObjId with
      | some sid => Except.ok
          { session with state := { session.state with sessionId := some sid } }
      | none => Except.error ()
  | "conversation.created" =>
      match message.conversationObjId with
      | some cid => Except.ok
          { session with state := { session.state with conversationId := some cid } }
      | none => Except.error ()
  | "error" =>
      match message.errorObj with
      | some _ => Except.ok session
      | none => Except.error ()
  | _ => Except.ok session

/-- `SessionManager.handleOpenAIMessage`: unknown session id is logged and
dropped; otherwise the state update runs and, if it did not raise, the
event is forwarded verbatim to the client socket when `readyState === 1`.
The second component is the frame sent to the client, if any. -/
def handleOpenAIMessage (st : ServerState) (sessionId : String)
    (message : REvent) : ServerState × Option REvent :=
  match lookupA sessionId st.sessions with
  | none => (st, none)
  | some session =>
      match updateSessionState session message with
      | Except.error _ => (st, none)
      | Except.ok session1 =>
          let st1 := { st with sessions := insertA sessionId session1 st.sessions }
          if session1.wsReady = WsReadyState.wsopen
          then (st1, some message) else (st1, none)

/-- An event of one of the three state-updating types that lacks the
nested object the handler dereferences (`message.session.id`,
`message.conversation.id`, `message.error.message`). -/
def MissingSpecialField (m : REvent) : Prop :=
  (m.type = "session.created" ∧ m.sessionObjId = none) ∨
  (m.type = "conversation.created" ∧ m.conversationObjId = none) ∨
  (m.type = "error" ∧ m.errorObj = none)

/-- The (amended) contract of handleOpenAIMessage: the client, session-id
and connection maps are untouched; an unknown session id drops the event
entirely; for a known session, other sessions are untouched, each of the
three special types with its field present applies exactly its state
update, `error` and unrecognised types leave the session unchanged, the
event is forwarded verbatim exactly when the client socket is open — and
a special-type event missing its field is caught and fully dropped. -/
def UpstreamMessageSpec (st : ServerState) (sessionId : String)
    (message : REvent) : Prop :=
  (handleOpenAIMessage st sessionId message).1.clients = st.clients ∧
  (handleOpenAIMessage st sessionId message).1.clientToSession =
    st.clientToSession ∧
  (handleOpenAIMessage st sessionId message).1.connections = st.connections ∧
  (lookupA sessionId st.sessions = none →
    handleOpenAIMessage st sessionId message = (st, none)) ∧
  ∀ session, lookupA sessionId st.sessions = some session →
    (∀ k, k ≠ sessionId →
      lookupA k (handleOpenAIMessage st sessionId message).1.sessions =
        lookupA k st.sessions) ∧
    (∀ x, message.type = "session.created" → message.sessionObjId = some x →
      lookupA sessionId (handleOpenAIMessage st sessionId message).1.sessions =
        some { session with
               state := { session.state with sessionId := some x } } ∧
      (handleOpenAIMessage st sessionId message).2 =
        (if session.wsReady = WsReadyState.wsopen then some message else none)) ∧
    (∀ x, message.type = "conversation.created" →
      message.conversationObjId = some x →
      lookupA sessionId (handleOpenAIMessage st sessionId message).1.sessions =
        some { session with
               state := { session.state with conversationId := some x } } ∧
      (handleOpenAIMessage st sessionId message).2 =
        (if session.wsReady = WsReadyState.wsopen then some message else none)) ∧
    (message.type = "error" → message.errorObj ≠ none →
      lookupA sessionId (handleOpenAIMessage st sessionId message).1.sessions =
        some session ∧
      (handleOpenAIMessage st sessionId message).2 =
        (if session.wsReady = WsReadyState.wsopen then some message else none)) ∧
    (message.type ≠ "session.created" → message.type ≠ "conversation.created" →
      message.type ≠ "error" →
      lookupA sessionId (handleOpenAIMessage st sessionId message).1.sessions =
        some session ∧
      (handleOpenAIMessage st sessionId message).2 =
        (if session.wsReady = WsReadyState.wsopen then some message else none)) ∧
    (MissingSpecialField message →
      handleOpenAIMessage st sessionId message = (st, none))

/-- `SessionManager.sendToOpenAI`: unknown session rejects; otherwise
delegate to `sendEvent` on the session's upstream connection.  On success
the result is (connection id, sent event, returned event id). -/
def sendToOpenAI (st : ServerState) (sessionId : String) (event : REvent)
    (now : ℤ) (uuid : String) : Except String (String × REvent × String) :=
  match lookupA sessionId st.sessions with
  | none => Except.error ("Sessão não encontrada: " ++ sessionId)
  | some session =>
      match sendEvent st session.openaiConnectionId event now uuid with
      | Except.ok (sent, eid) => Except.ok (session.openaiConnectionId, sent, eid)
      | Except.error e => Except.error e

/-- `SessionManager.closeSession`: a logged no-op when the session is
unknown; otherwise close the upstream connection (guarded by the
truthiness of `openaiConnectionId`) and delete both map entries. -/
def closeSession (st : ServerState) (sessionId : String) : ServerState :=
  match lookupA sessionId st.sessions with
  | none => st
  | some session =>
      let st1 := if session.openaiConnectionId ≠ ""
        then closeConnection st session.openaiConnectionId else st
      { st1 with
        clientToSession := eraseA session.clientId st1.clientToSession
        sessions := eraseA sessionId st1.sessions }

/-- `SessionManager.closeClientSessions`. -/
def closeClientSessions (st : ServerState) (clientId : String) : ServerState :=
  match lookupA clientId st.clientToSession with
  | some sessionId => closeSession st sessionId
  | none => st

/-! ## Protocol dispatcher (src/websocket/wsHandler.js) -/

/-- The eight event types the dispatcher switch recognises. -/
def recognizedTypes : List String :=
  ["session.update", "input_audio_buffer.append", "input_audio_buffer.commit",
   "input_audio_buffer.clear", "response.create", "response.cancel",
   "conversation.item.create", "conversation.item.delete"]

/-- The `internal_error` frame the dispatcher's catch block sends. -/
def internalErrorFrame (errMsg : String) (correlate : Option String) : REvent :=
  { type := "error"
    errorObj := some ("Erro ao processar solicitação: " ++ errMsg)
    errCode := some "internal_error"
    eventId := correlate }

/-- wsHandler's `handleClientMessage`: resolve the client's session (log
and return when absent), switch on `message.type` (every recognised case
forwards to `sendToOpenAI`; `input_audio_buffer.append` first re-checks
the session by id and raises when it is missing; an unknown type is only
logged), and convert any raised error into one `internal_error` frame to
the client when its session socket is open.  Result: (state — never
mutated on this path, upstream sends as (connection id, event) pairs,
frames sent to the client). -/
def wsHandlerHandleClientMessage (st : ServerState) (clientId : String)
    (message : REvent) (now : ℤ) (uuid : String) :
    ServerState × List (String × REvent) × List REvent :=
  match getClientSession st clientId with
  | none => (st, [], [])
  | some session =>
      let sessionId := session.id
      if recognizedTypes.contains message.type then
        let attempt : Except String (String × REvent × String) :=
          if message.type = "input_audio_buffer.append" ∧
              getSession st sessionId = none
          then Except.error ("Sessão não encontrada: " ++ sessionId)
          else sendToOpenAI st sessionId message now uuid
        match attempt with
        | Except.ok (connId, sent, _) => (st, [(connId, sent)], [])
        | Except.error e =>
            let clientFrames := match getClientSession st clientId with
              | some s2 =>
                  if s2.wsReady = WsReadyState.wsopen
                  then [internalErrorFrame e message.eventId] else []
              | none => []
            (st, [], clientFrames)
      else (st, [], [])

/-! ## Relay server (src/websocket/wsServer.js) -/

/-- `WebSocketServer.handleClientDisconnect`: close the client's sessions
through the session registry and drop the client record. -/
def handleClientDisconnect (st : ServerState) (clientId : String) :
    ServerState :=
  let st1 := closeClientSessions st clientId
  { st1 with clients := eraseA clientId st1.clients }

/-- One client's turn inside the 30 s ping sweep of `startPingInterval`:
an OPEN transport is pinged and evicted when the last pong is stale by
more than 60 000 ms (`client?.lastPong && Date.now() - client?.lastPong >
60000`); a transport that is neither OPEN nor CONNECTING is cleaned up
immediately.  Both evictions go through `handleClientDisconnect`. -/
def stepClient (now : ℤ) (st : ServerState) (entry : String × ClientRecord) :
    ServerState :=
  if entry.2.readyState = WsReadyState.wsopen then
    if entry.2.lastPong ≠ 0 ∧ now - entry.2.lastPong > 60000
    then handleClientDisconnect st entry.1
    else st
  else if entry.2.readyState ≠ WsReadyState.connecting then
    handleClientDisconnect st entry.1
  else st

/-- The body of the 30 s interval: sweep every tracked client. -/
def pingCheck (st : ServerState) (now : ℤ) : ServerState :=
  st.clients.foldl (stepClient now) st

/-- The `invalid_message_format` frame built in the catch block of the
server's `handleClientMessage` method. -/
def invalidFormatFrame (parseErrMsg : String) : REvent :=
  { type := "error"
    errorObj := some ("Erro no formato da mensagem: " ++ parseErrMsg)
    errCode := some "invalid_message_format" }

/-- The leftover test frame sent unconditionally after every inbound
client frame by the `ws.on("message")` handler installed in
`handleConnection`. -/
def testFrame : REvent :=
  { type := "message"
    errorObj := some "Teste de mensagem..... opa"
    errCode := some "no_code_here" }

/-- `WebSocketServer.handleClientMessage` (method): `JSON.parse` the raw
frame — its outcome is the `parsed` argument, with `parseErrMsg` the
message of the exception when parsing failed.  A parse failure sends one
`invalid_message_format` frame back when the client record exists and its
transport is OPEN; a parsed event goes to the dispatcher. -/
def wsHandleClientMessage (st : ServerState) (clientId : String)
    (parsed : Option REvent) (parseErrMsg : String) (now : ℤ) (uuid : String) :
    ServerState × List (String × REvent) × List REvent :=
  match parsed with
  | some message => wsHandlerHandleClientMessage st clientId message now uuid
  | none =>
      let clientFrames := match lookupA clientId st.clients with
        | some client =>
            if client.readyState = WsReadyState.wsopen
            then [invalidFormatFrame parseErrMsg] else []
        | none => []
      (st, [], clientFrames)

/-- The whole `ws.on("message")` callback: log, run the
`handleClientMessage` method, then always send the leftover test frame.
The transport is never closed on this path. -/
def wsOnMessage (st : ServerState) (clientId : String) (parsed : Option REvent)
    (parseErrMsg : String) (now : ℤ) (uuid : String) :
    ServerState × List (String × REvent) × List REvent :=
  match wsHandleClientMessage st clientId parsed parseErrMsg now uuid with
  | (st1, upstream, clientFrames) => (st1, upstream, clientFrames ++ [testFrame])

/-- All traces of an evicted client are gone: its client record, its
entry in each of the two session maps, and its upstream connection. -/
def EvictAbsent (st : ServerState) (clientId sessionId connId : String) :
    Prop :=
  lookupA clientId st.clients = none ∧
  lookupA clientId st.clientToSession = none ∧
  lookupA sessionId st.sessions = none ∧
  lookupA connId st.connections = none

/-- The registry invariants linking a client to its session: the client
maps to the session id, the session is stored under that id, no other
client maps to that session id, and no other stored session belongs to
this client. -/
def EvictionInvariant (st : ServerState) (clientId sessionId : String)
    (sess : Session) : Prop :=
  lookupA clientId st.clientToSession = some sessionId ∧
  lookupA sessionId st.sessions = some sess ∧
  (∀ p ∈ st.clientToSession, p.2 = sessionId → p.1 = clientId) ∧
  (∀ p ∈ st.sessions, (p.2).clientId = clientId → p.1 = sessionId)

/-! ## Concrete fixtures for witnesses and counterexamples -/

/-- A session fixture: client c1 bound to upstream connection conn1. -/
def sessFix : Session :=
  { id := "s1", clientId := "c1", openaiConnectionId := "conn1"
    wsReady := WsReadyState.wsopen, created := 0, state := {} }

/-- A registry holding exactly the session of `sessFix` and its client and
connection records. -/
def stFix : ServerState :=
  { clients := [("c1", { readyState := WsReadyState.wsopen, lastPong := 1 })]
    sessions := [("s1", sessFix)]
    clientToSession := [("c1", "s1")]
    connections := [("conn1", ⟨"c1", 0⟩)] }

/-- An upstream `error` event carrying no `error` object. -/
def badErrorEvent : REvent := { type := "error" }

/-! ## Association-list lemmas -/

theorem lookupA_eraseA {α : Type} (k a : String) (l : List (String × α)) :
    lookupA k (eraseA a l) = if k = a then none else lookupA k l := by
  induction l with
  | nil =>
      simp only [eraseA, lookupA]
      split <;> rfl
  | cons hd tl ih =>
      rcases hd with ⟨k1, v1⟩
      by_cases h1 : k1 = a
      · subst h1
        by_cases h2 : k = k1
        · subst h2
          simpa [eraseA, lookupA] using ih
        · have h2' : ¬ k1 = k := fun hh => h2 hh.symm
          simpa [eraseA, lookupA, h2, h2'] using ih
      · by_cases h3 : k1 = k
        · subst h3
          simp [eraseA, lookupA, h1]
        · simp [eraseA, lookupA, h1, h3, ih]

theorem lookupA_insertA {α : Type} (k a : String) (v : α)
    (l : List (String × α)) :
    lookupA k (insertA a v l) = if a = k then some v else lookupA k l := by
  by_cases h : a = k
  · subst h
    simp [insertA, lookupA]
  · have h2 : ¬ k = a := fun hh => h hh.symm
    simp [insertA, lookupA, h, lookupA_eraseA, h2]

theorem lookupA_mem {α : Type} {k : String} {v : α} {l : List (String × α)}
    (h : lookupA k l = some v) : (k, v) ∈ l := by
  induction l with
  | nil => simp [lookupA] at h
  | cons hd tl ih =>
      rcases hd with ⟨k1, v1⟩
      by_cases h1 : k1 = k
      · subst h1
        simp only [lookupA, if_pos rfl] at h
        have hv : v1 = v := Option.some.inj h
        subst hv
        exact List.mem_cons_self _ _
      · simp only [lookupA, if_neg h1] at h
        exact List.mem_cons_of_mem _ (ih h)

/-! ## Session creation (claims C1, C2) -/

/-- C2: for a client that already has an active session, createSession
returns the stored Session object and leaves the whole registry state —
in particular the upstream connection map and both session maps —
literally unchanged, so no second upstream connection is opened. -/
theorem createSession_idempotent (st : ServerState) (clientId sid : String)
    (sess : Session) (wsReady : WsReadyState) (sidF connF : String) (now : ℤ)
    (opensInTime : Bool)
    (h1 : lookupA clientId st.clientToSession = some sid)
    (h2 : lookupA sid st.sessions = some sess) :
    createSession st clientId wsReady sidF connF now opensInTime =
      (Except.ok (some sess), st) := by
  simp [createSession, h1, h2]

theorem createSession_idempotent_witness :
    lookupA "c1" stFix.clientToSession = some "s1" ∧
    lookupA "s1" stFix.sessions = some sessFix ∧
    createSession stFix "c1" WsReadyState.wsopen "s2" "conn2" 5 true =
      (Except.ok (some sessFix), stFix) :=
  ⟨rfl, rfl,
   createSession_idempotent stFix "c1" "s1" sessFix WsReadyState.wsopen
     "s2" "conn2" 5 true rfl rfl⟩

/-- C1 (amended): when the upstream handshake does not open within the
bounded wait, createSession fails with the connect-timeout error and
leaves both session maps unchanged (hence no session entry for the
client), but the upstream connection map RETAINS the entry that
createConnection stored before awaiting the handshake. -/
theorem createSession_timeout (st : ServerState) (clientId : String)
    (wsReady : WsReadyState) (sidF connF : String) (now : ℤ)
    (hnone : lookupA clientId st.clientToSession = none) :
    (createSession st clientId wsReady sidF connF now false).1 =
      Except.error "Timeout ao conectar com OpenAI" ∧
    (createSession st clientId wsReady sidF connF now false).2.clientToSession =
      st.clientToSession ∧
    (createSession st clientId wsReady sidF connF now false).2.sessions =
      st.sessions ∧
    lookupA clientId
      (createSession st clientId wsReady sidF connF now false).2.clientToSession =
      none ∧
    lookupA connF
      (createSession st clientId wsReady sidF connF now false).2.connections =
      some ⟨clientId, now⟩ := by
  refine ⟨?_, ?_, ?_, ?_, ?_⟩ <;>
    simp [createSession, createConnection, hnone, lookupA_insertA]

theorem createSession_timeout_witness :
    lookupA "c9" ({} : ServerState).clientToSession = none ∧
    ((createSession {} "c9" WsReadyState.wsopen "s9" "conn9" 7 false).1 =
        Except.error "Timeout ao conectar com OpenAI" ∧
      (createSession {} "c9" WsReadyState.wsopen "s9" "conn9" 7 false).2.clientToSession =
        ({} : ServerState).clientToSession ∧
      (createSession {} "c9" WsReadyState.wsopen "s9" "conn9" 7 false).2.sessions =
        ({} : ServerState).sessions ∧
      lookupA "c9"
        (createSession {} "c9" WsReadyState.wsopen "s9" "conn9" 7 false).2.clientToSession =
        none ∧
      lookupA "conn9"
        (createSession {} "c9" WsReadyState.wsopen "s9" "conn9" 7 false).2.connections =
        some ⟨"c9", 7⟩) :=
  ⟨rfl, createSession_timeout {} "c9" WsReadyState.wsopen "s9" "conn9" 7 rfl⟩

/-- C1 (counterexample to the claim as stated): starting from an empty
registry, a handshake timeout for client c9 yields the timeout error, yet
the upstream connection map still contains the entry for the attempted
connection — contradicting the claim that it contains no such entry. -/
theorem createSession_timeout_leaves_connection :
    (createSession {} "c9" WsReadyState.wsopen "s9" "conn9" 7 false).1 =
      Except.error "Timeout ao conectar com OpenAI" ∧
    lookupA "conn9"
      (createSession {} "c9" WsReadyState.wsopen "s9" "conn9" 7 false).2.connections ≠
      none := by
  exact ⟨rfl, by decide⟩

/-! ## Dispatcher without a session (claim C10) -/

/-- C10: a decoded client message for a client with no active session is
dropped by the dispatcher after logging: the state is returned untouched,
nothing is sent upstream, and nothing is sent back to the client. -/
theorem dispatcher_drops_without_session (st : ServerState)
    (clientId : String) (message : REvent) (now : ℤ) (uuid : String)
    (h : getClientSession st clientId = none) :
    wsHandlerHandleClientMessage st clientId message now uuid = (st, [], []) := by
  simp [wsHandlerHandleClientMessage, h]

theorem dispatcher_drops_without_session_witness :
    getClientSession {} "c1" = none ∧
    wsHandlerHandleClientMessage {} "c1"
        { type := "response.create" } 3 "u" = ({}, [], []) :=
  ⟨rfl,
   dispatcher_drops_without_session {} "c1" { type := "response.create" } 3 "u" rfl⟩

/-! ## sendEvent identifier assignment (claim C8) -/

/-- C8 (amended): on a registered connection, an event whose event_id is
absent OR falsy (the empty string — the source guards with
`!event.event_id`) is mutated in place: the generated identifier evt_ ++
timestamp ++ _ ++ the 8-character uuid prefix is written into the
caller's event, that mutated event is what gets serialised and sent, and
the same identifier is returned; an event arriving with a non-empty
(truthy) event_id is sent unchanged and that identifier is returned. -/
theorem sendEvent_assigns_id (st : ServerState) (connectionId : String)
    (event : REvent) (now : ℤ) (uuid : String) (conn : ConnRecord)
    (hc : lookupA connectionId st.connections = some conn)
    (hu : 8 ≤ uuid.length) :
    (jsFalsyId event.eventId = true →
      sendEvent st connectionId event now uuid =
        Except.ok
          ({ event with
             eventId := some ("evt_" ++ toString now ++ "_" ++ uuid.take 8) },
           "evt_" ++ toString now ++ "_" ++ uuid.take 8) ∧
      (uuid.take 8).length = 8) ∧
    (∀ i, event.eventId = some i → i ≠ "" →
      sendEvent st connectionId event now uuid = Except.ok (event, i)) := by
  constructor
  · intro hfalsy
    constructor
    · simp [sendEvent, hc, hfalsy]
    · have : (uuid.take 8).length = min 8 uuid.data.length := by
        rw [String.take_eq]
        simp
      rw [this]
      have h8 : 8 ≤ uuid.data.length := hu
      omega
  · intro i hi hne
    have hfalse : jsFalsyId (some i) = false := by
      simp [jsFalsyId, hne]
    simp [sendEvent, hc, hi, hfalse]

theorem sendEvent_assigns_id_witness :
    lookupA "conn1" stFix.connections = some ⟨"c1", 0⟩ ∧
    8 ≤ ("123e4567-e89b" : String).length ∧
    ((jsFalsyId ({ type := "response.create" } : REvent).eventId = true →
        sendEvent stFix "conn1" { type := "response.create" } 42 "123e4567-e89b" =
          Except.ok
            ({ ({ type := "response.create" } : REvent) with
               eventId := some ("evt_" ++ toString (42 : ℤ) ++ "_" ++
                 ("123e4567-e89b" : String).take 8) },
             "evt_" ++ toString (42 : ℤ) ++ "_" ++
               ("123e4567-e89b" : String).take 8) ∧
        (("123e4567-e89b" : String).take 8).length = 8) ∧
      (∀ i, ({ type := "response.create" } : REvent).eventId = some i → i ≠ "" →
        sendEvent stFix "conn1" { type := "response.create" } 42 "123e4567-e89b" =
          Except.ok ({ type := "response.create" }, i))) :=
  ⟨rfl, by decide,
   sendEvent_assigns_id stFix "conn1" { type := "response.create" } 42
     "123e4567-e89b" ⟨"c1", 0⟩ rfl (by decide)⟩

/-- C8 (counterexample to the claim as stated): the caller supplies the
event_id value empty string on a registered connection, yet sendEvent
does NOT send the event with that identifier unchanged: the falsy
identifier is replaced by the freshly generated one, which is what gets
sent and returned. -/
theorem sendEvent_empty_id_replaced :
    sendEvent stFix "conn1"
        { type := "response.create", eventId := some "" } 42 "123e4567-e89b" =
      Except.ok
        ({ type := "response.create",
           eventId := some ("evt_" ++ toString (42 : ℤ) ++ "_" ++
             ("123e4567-e89b" : String).take 8) },
         "evt_" ++ toString (42 : ℤ) ++ "_" ++
           ("123e4567-e89b" : String).take 8) ∧
    ("evt_" ++ toString (42 : ℤ) ++ "_" ++
      ("123e4567-e89b" : String).take 8 : String) ≠ "" := by
  constructor
  · rfl
  · decide

/-! ## Audio round trip (claims C3, C9) -/

/-- One sample through pcm16ToFloat32 then float32ToPcm16 is reproduced
exactly: the asymmetric divisor is inverted by the asymmetric multiplier,
the clamp is the identity on [-1, 1], and truncation plus 16-bit wrap are
the identity on an in-range integer. -/
theorem sampleRoundtrip (v : ℤ) (h1 : -32768 ≤ v) (h2 : v ≤ 32767) :
    wrap16 (ratTruncate
      (if max (-1) (min 1 (if v < 0 then (v : ℚ) / 32768 else (v : ℚ) / 32767)) < 0
       then max (-1) (min 1 (if v < 0 then (v : ℚ) / 32768 else (v : ℚ) / 32767)) * 32768
       else max (-1) (min 1 (if v < 0 then (v : ℚ) / 32768 else (v : ℚ) / 32767)) * 32767))
    = v := by
  have h1q : (-32768 : ℚ) ≤ (v : ℚ) := by exact_mod_cast h1
  have h2q : (v : ℚ) ≤ 32767 := by exact_mod_cast h2
  have htr : ratTruncate (v : ℚ) = v := by
    unfold ratTruncate
    split
    · exact Int.ceil_intCast v
    · exact Int.floor_intCast v
  by_cases hv : v < 0
  · have hvq : (v : ℚ) < 0 := by exact_mod_cast hv
    have hdiv : (v : ℚ) / 32768 < 0 := by linarith
    have hle1 : (v : ℚ) / 32768 ≤ 1 := by linarith
    have hgem1 : (-1 : ℚ) ≤ (v : ℚ) / 32768 := by linarith
    rw [if_pos hv, min_eq_right hle1, max_eq_right hgem1, if_pos hdiv,
      div_mul_cancel₀ _ (by norm_num : (32768 : ℚ) ≠ 0), htr]
    unfold wrap16
    omega
  · have hvq : (0 : ℚ) ≤ (v : ℚ) := by
      have : (0 : ℤ) ≤ v := not_lt.mp hv
      exact_mod_cast this
    have hdiv : (0 : ℚ) ≤ (v : ℚ) / 32767 := by linarith
    have hle1 : (v : ℚ) / 32767 ≤ 1 := by linarith
    have hgem1 : (-1 : ℚ) ≤ (v : ℚ) / 32767 := by linarith
    rw [if_neg hv, min_eq_right hle1, max_eq_right hgem1,
      if_neg (not_lt.mpr hdiv),
      div_mul_cancel₀ _ (by norm_num : (32767 : ℚ) ≠ 0), htr]
    unfold wrap16
    omega

/-- C3: float32ToPcm16 inverts pcm16ToFloat32 EXACTLY on every valid PCM16
buffer (even byte length, byte values), which is within the ±1
least-significant-bit tolerance the specification allows. -/
theorem pcm16_roundtrip : ∀ b : List ℕ, b.length % 2 = 0 →
    (∀ x ∈ b, x < 256) → float32ToPcm16 (pcm16ToFloat32 b) = b
  | [] => fun _ _ => rfl
  | [_] => fun h _ => by simp at h
  | lo :: hi :: rest => fun h hb => by
      have hlo : lo < 256 := hb lo (by simp)
      have hhi : hi < 256 := hb hi (by simp)
      have h2 : rest.length % 2 = 0 := by
        simp only [List.length_cons] at h
        omega
      have ih := pcm16_roundtrip rest h2
        (fun x hx => hb x (by simp [hx]))
      have hd1 : -32768 ≤ (if lo + 256 * hi < 32768
          then ((lo + 256 * hi : ℕ) : ℤ)
          else ((lo + 256 * hi : ℕ) : ℤ) - 65536) := by
        split <;> push_cast <;> omega
      have hd2 : (if lo + 256 * hi < 32768
          then ((lo + 256 * hi : ℕ) : ℤ)
          else ((lo + 256 * hi : ℕ) : ℤ) - 65536) ≤ 32767 := by
        split <;> push_cast <;> omega
      have hs := sampleRoundtrip _ hd1 hd2
      simp only [pcm16ToFloat32, float32ToPcm16] at ih ⊢
      simp only [bytesToSamples, List.map_cons, samplesToBytes]
      rw [hs, ih]
      have hmod : ((if lo + 256 * hi < 32768
          then ((lo + 256 * hi : ℕ) : ℤ)
          else ((lo + 256 * hi : ℕ) : ℤ) - 65536) % 65536).toNat
          = lo + 256 * hi := by
        split <;> push_cast <;> omega
      rw [hmod]
      have hlo2 : (lo + 256 * hi) % 256 = lo := by omega
      have hhi2 : (lo + 256 * hi) / 256 = hi := by omega
      rw [hlo2, hhi2]

theorem pcm16_roundtrip_witness :
    ([1, 0, 255, 255, 0, 128] : List ℕ).length % 2 = 0 ∧
    (∀ x ∈ ([1, 0, 255, 255, 0, 128] : List ℕ), x < 256) ∧
    float32ToPcm16 (pcm16ToFloat32 [1, 0, 255, 255, 0, 128]) =
      [1, 0, 255, 255, 0, 128] :=
  ⟨by decide, by decide,
   pcm16_roundtrip [1, 0, 255, 255, 0, 128] (by decide) (by decide)⟩

theorem bytesToSamples_length : ∀ b : List ℕ,
    (bytesToSamples b).length = b.length / 2
  | [] => rfl
  | [_] => by simp [bytesToSamples]
  | _ :: _ :: rest => by
      simp only [bytesToSamples, List.length_cons]
      rw [bytesToSamples_length rest]
      omega

theorem bytesToSamples_bounds : ∀ b : List ℕ, (∀ x ∈ b, x < 256) →
    ∀ v ∈ bytesToSamples b, -32768 ≤ v ∧ v ≤ 32767
  | [] => by simp [bytesToSamples]
  | [_] => by simp [bytesToSamples]
  | lo :: hi :: rest => fun hb v hv => by
      have hlo : lo < 256 := hb lo (by simp)
      have hhi : hi < 256 := hb hi (by simp)
      simp only [bytesToSamples, List.mem_cons] at hv
      rcases hv with hv | hv
      · subst hv
        constructor <;> (split <;> push_cast <;> omega)
      · exact bytesToSamples_bounds rest (fun x hx => hb x (by simp [hx])) v hv

/-- C9 (amended): pcm16ToFloat32 returns exactly ⌊n/2⌋ samples for a
buffer of n bytes — for odd n the fractional Int16Array length is
truncated (ToIndex), the final byte is silently ignored, and no exception
is thrown — and every returned sample lies in [-1, 1]. -/
theorem pcm16ToFloat32_shape (b : List ℕ) (hb : ∀ x ∈ b, x < 256) :
    (pcm16ToFloat32 b).length = b.length / 2 ∧
    ∀ f ∈ pcm16ToFloat32 b, -1 ≤ f ∧ f ≤ 1 := by
  constructor
  · simp [pcm16ToFloat32, bytesToSamples_length]
  · intro f hf
    simp only [pcm16ToFloat32, List.mem_map] at hf
    obtain ⟨v, hv, rfl⟩ := hf
    obtain ⟨hv1, hv2⟩ := bytesToSamples_bounds b hb v hv
    have h1q : (-32768 : ℚ) ≤ (v : ℚ) := by exact_mod_cast hv1
    have h2q : (v : ℚ) ≤ 32767 := by exact_mod_cast hv2
    by_cases hneg : v < 0
    · have : (v : ℚ) < 0 := by exact_mod_cast hneg
      rw [if_pos hneg]
      constructor <;> linarith
    · have : (0 : ℚ) ≤ (v : ℚ) := by
        have := not_lt.mp hneg
        exact_mod_cast this
      rw [if_neg hneg]
      constructor <;> linarith

theorem pcm16ToFloat32_shape_witness :
    (∀ x ∈ ([7, 1, 9] : List ℕ), x < 256) ∧
    ((pcm16ToFloat32 [7, 1, 9]).length = ([7, 1, 9] : List ℕ).length / 2 ∧
      ∀ f ∈ pcm16ToFloat32 [7, 1, 9], -1 ≤ f ∧ f ≤ 1) :=
  ⟨by decide, pcm16ToFloat32_shape [7, 1, 9] (by decide)⟩

/-- C9 (counterexample to the claim as stated): on the odd-length buffer
[0, 0, 0] the function does not fail — it returns the single decoded
sample, truncating away the trailing byte. -/
theorem pcm16ToFloat32_odd_truncates :
    pcm16ToFloat32 [0, 0, 0] = [0] := by
  norm_num [pcm16ToFloat32, bytesToSamples]

/-! ## Resampling (claim C6) -/

theorem getD_map_range {α : Type} (n : ℕ) (f : ℕ → α) (d : α) (i : ℕ)
    (hi : i < n) : ((List.range n).map f).getD i d = f i := by
  simp [List.getD_eq_getElem?_getD, List.getElem?_map, List.getElem?_range, hi]

/-- C6: resampling at equal rates is the identity; at unequal positive
rates the output has round(length / ratio) samples, interior samples are
the linear interpolation of the two bracketing input samples, and an
index whose interpolation would read past the end yields exactly the last
input sample. -/
theorem resample_spec (s : List ℚ) (fromRate toRate : ℚ)
    (hf : 0 < fromRate) (ht : 0 < toRate) :
    (∀ r : ℚ, resampleAudio s r r = s) ∧
    (fromRate ≠ toRate → ResampleUnequalSpec s fromRate toRate) := by
  constructor
  · intro r
    simp [resampleAudio]
  · intro hne
    have hrpos : 0 < fromRate / toRate := div_pos hf ht
    have hlen : (resampleAudio s fromRate toRate).length =
        (jsRound ((s.length : ℚ) / (fromRate / toRate))).toNat := by
      simp [resampleAudio, hne]
    refine ⟨hlen, ?_⟩
    intro i hi
    rw [hlen] at hi
    have hF : (resampleAudio s fromRate toRate).getD i 0 =
        (if ⌊(i : ℚ) * (fromRate / toRate)⌋ + 1 < (s.length : ℤ) then
          s.getD (⌊(i : ℚ) * (fromRate / toRate)⌋).toNat 0 *
            (1 - ((i : ℚ) * (fromRate / toRate) -
              (⌊(i : ℚ) * (fromRate / toRate)⌋ : ℚ))) +
          s.getD ((⌊(i : ℚ) * (fromRate / toRate)⌋).toNat + 1) 0 *
            ((i : ℚ) * (fromRate / toRate) -
              (⌊(i : ℚ) * (fromRate / toRate)⌋ : ℚ))
        else s.getD (⌊(i : ℚ) * (fromRate / toRate)⌋).toNat 0) := by
      simp only [resampleAudio, if_neg hne]
      exact getD_map_range _ _ _ i hi
    constructor
    · intro hcond
      rw [hF, if_pos hcond]
    · intro hcond
      rw [hF, if_neg hcond]
      have hjge : (s.length : ℤ) ≤ ⌊(i : ℚ) * (fromRate / toRate)⌋ + 1 :=
        not_lt.mp hcond
      have hj0 : 0 ≤ ⌊(i : ℚ) * (fromRate / toRate)⌋ :=
        Int.floor_nonneg.mpr (by positivity)
      have hL0 : 0 ≤ jsRound ((s.length : ℚ) / (fromRate / toRate)) := by
        unfold jsRound
        apply Int.floor_nonneg.mpr
        positivity
      have hLle : ((jsRound ((s.length : ℚ) / (fromRate / toRate)) : ℤ) : ℚ) ≤
          (s.length : ℚ) / (fromRate / toRate) + 1 / 2 :=
        Int.floor_le _
      have hiL : ((i : ℤ) : ℚ) + 1 ≤
          ((jsRound ((s.length : ℚ) / (fromRate / toRate)) : ℤ) : ℚ) := by
        have h1 : (i : ℤ) + 1 ≤ jsRound ((s.length : ℚ) / (fromRate / toRate)) := by
          omega
        exact_mod_cast h1
      have hcancel : (s.length : ℚ) / (fromRate / toRate) * (fromRate / toRate) =
          (s.length : ℚ) :=
        div_mul_cancel₀ _ (ne_of_gt hrpos)
      have hmul : (i : ℚ) * (fromRate / toRate) ≤
          ((s.length : ℚ) / (fromRate / toRate) - 1 / 2) * (fromRate / toRate) := by
        apply mul_le_mul_of_nonneg_right _ (le_of_lt hrpos)
        push_cast at hiL ⊢
        linarith
      have hlt : (i : ℚ) * (fromRate / toRate) < (s.length : ℚ) := by
        have hexp : ((s.length : ℚ) / (fromRate / toRate) - 1 / 2) *
            (fromRate / toRate) =
            (s.length : ℚ) - (fromRate / toRate) / 2 := by
          field_simp
          ring
        rw [hexp] at hmul
        linarith
      have hjlt : ⌊(i : ℚ) * (fromRate / toRate)⌋ < (s.length : ℤ) :=
        Int.floor_lt.mpr (by exact_mod_cast hlt)
      have hj : (⌊(i : ℚ) * (fromRate / toRate)⌋).toNat = s.length - 1 := by
        omega
      rw [hj]

/-- Concrete use of the resampling theorem: downsampling [1, 2] from rate
2 to rate 1 and the identity at equal rates. -/
theorem resample_spec_witness :
    (0 : ℚ) < 2 ∧ (0 : ℚ) < 1 ∧
    ((∀ r : ℚ, resampleAudio [1, 2] r r = [1, 2]) ∧
      ((2 : ℚ) ≠ 1 → ResampleUnequalSpec [1, 2] 2 1)) :=
  ⟨by norm_num, by norm_num, resample_spec [1, 2] 2 1 (by norm_num) (by norm_num)⟩

/-! ## Upstream message handling (claim C4) -/

theorem updateSessionState_sessionCreated (session : Session) (m : REvent)
    (x : String) (hty : m.type = "session.created")
    (hobj : m.sessionObjId = some x) :
    updateSessionState session m = Except.ok
      { session with state := { session.state with sessionId := some x } } := by
  unfold updateSessionState
  rw [hty, hobj]
  rfl

theorem updateSessionState_conversationCreated (session : Session)
    (m : REvent) (x : String) (hty : m.type = "conversation.created")
    (hobj : m.conversationObjId = some x) :
    updateSessionState session m = Except.ok
      { session with
        state := { session.state with conversationId := some x } } := by
  unfold updateSessionState
  rw [hty, hobj]
  rfl

theorem updateSessionState_error (session : Session) (m : REvent)
    (e : String) (hty : m.type = "error") (hobj : m.errorObj = some e) :
    updateSessionState session m = Except.ok session := by
  unfold updateSessionState
  rw [hty, hobj]
  rfl

theorem updateSessionState_other (session : Session) (m : REvent)
    (h1 : m.type ≠ "session.created") (h2 : m.type ≠ "conversation.created")
    (h3 : m.type ≠ "error") :
    updateSessionState session m = Except.ok session := by
  unfold updateSessionState
  split <;> simp_all

theorem updateSessionState_missing (session : Session) (m : REvent)
    (h : MissingSpecialField m) :
    updateSessionState session m = Except.error () := by
  unfold MissingSpecialField at h
  unfold updateSessionState
  rcases h with ⟨hty, hobj⟩ | ⟨hty, hobj⟩ | ⟨hty, hobj⟩ <;> (rw [hty, hobj]; rfl)

/-- C4 (amended): the full contract of handleOpenAIMessage, including the
drop of a special-type event whose nested object is missing. -/
theorem handleUpstream_spec (st : ServerState) (sessionId : String)
    (message : REvent) : UpstreamMessageSpec st sessionId message := by
  unfold UpstreamMessageSpec
  cases hlook : lookupA sessionId st.sessions with
  | none =>
      refine ⟨?_, ?_, ?_, ?_, ?_⟩ <;>
        simp [handleOpenAIMessage, hlook]
  | some session =>
      have hmain : ∀ s1, updateSessionState session message = Except.ok s1 →
          handleOpenAIMessage st sessionId message =
            ({ st with sessions := insertA sessionId s1 st.sessions },
             if s1.wsReady = WsReadyState.wsopen then some message else none) := by
        intro s1 hupd
        simp only [handleOpenAIMessage, hlook, hupd]
        split <;> rfl
      have hw : ∀ s1 : Session, s1.wsReady = session.wsReady →
          (if s1.wsReady = WsReadyState.wsopen then some message else none) =
            (if session.wsReady = WsReadyState.wsopen then some message
             else none) := by
        intro s1 h
        rw [h]
      refine ⟨?_, ?_, ?_, ?_, ?_⟩
      · cases hupd : updateSessionState session message with
        | error e => simp [handleOpenAIMessage, hlook, hupd]
        | ok s1 => simp [hmain s1 hupd]
      · cases hupd : updateSessionState session message with
        | error e => simp [handleOpenAIMessage, hlook, hupd]
        | ok s1 => simp [hmain s1 hupd]
      · cases hupd : updateSessionState session message with
        | error e => simp [handleOpenAIMessage, hlook, hupd]
        | ok s1 => simp [hmain s1 hupd]
      · intro h
        exact absurd h (by simp)
      · intro session2 hlook2
        have hsess : session2 = session :=
          (Option.some.inj hlook2).symm
        subst hsess
        refine ⟨?_, ?_, ?_, ?_, ?_, ?_⟩
        · intro k hk
          cases hupd : updateSessionState session2 message with
          | error e => simp [handleOpenAIMessage, hlook, hupd]
          | ok s1 =>
              have hkk : ¬ sessionId = k := fun hh => hk hh.symm
              simp [hmain s1 hupd, lookupA_insertA, hkk]
        · intro x hty hobj
          have hupd := updateSessionState_sessionCreated session2 message x hty hobj
          rw [hmain _ hupd]
          constructor
          · simp [lookupA_insertA]
          · exact hw _ rfl
        · intro x hty hobj
          have hupd :=
            updateSessionState_conversationCreated session2 message x hty hobj
          rw [hmain _ hupd]
          constructor
          · simp [lookupA_insertA]
          · exact hw _ rfl
        · intro hty hobj
          obtain ⟨e, he⟩ := Option.ne_none_iff_exists.mp hobj
          have hupd := updateSessionState_error session2 message e hty he.symm
          rw [hmain _ hupd]
          constructor
          · simp [lookupA_insertA, hlook]
          · exact hw _ rfl
        · intro h1 h2 h3
          have hupd := updateSessionState_other session2 message h1 h2 h3
          rw [hmain _ hupd]
          constructor
          · simp [lookupA_insertA, hlook]
          · exact hw _ rfl
        · intro hmiss
          have hupd := updateSessionState_missing session2 message hmiss
          simp [handleOpenAIMessage, hlook, hupd]

theorem handleUpstream_spec_witness :
    UpstreamMessageSpec stFix "s1"
      { type := "session.created", sessionObjId := some "osess_7" } :=
  handleUpstream_spec stFix "s1"
    { type := "session.created", sessionObjId := some "osess_7" }

/-- C4 (counterexample to the claim as stated): the registered session s1
has an OPEN client socket, yet the upstream event of type error carrying
no error object is not forwarded: the property access throws, the
exception is caught, and nothing is sent. -/
theorem handleUpstream_counterexample :
    (lookupA "s1" stFix.sessions).map Session.wsReady =
      some WsReadyState.wsopen ∧
    (handleOpenAIMessage stFix "s1" badErrorEvent).2 = none :=
  ⟨rfl, rfl⟩

/-! ## Malformed client frame (claim C5) -/

/-- C5 (behaviour at the failing input): for the connected, OPEN client c1
a frame that fails JSON.parse produces the invalid_message_format error
frame AND a second leftover test frame of type message with code
no_code_here — two response frames, not exactly one — while the registry
state is unchanged and the transport is left open (no close, client
record intact). -/
theorem malformed_frame_sends_two_frames :
    (wsOnMessage stFix "c1" none "Unexpected token h in JSON" 0 "u").2.2 =
      [invalidFormatFrame "Unexpected token h in JSON", testFrame] ∧
    (invalidFormatFrame "Unexpected token h in JSON").errCode =
      some "invalid_message_format" ∧
    testFrame.errCode = some "no_code_here" ∧
    (wsOnMessage stFix "c1" none "Unexpected token h in JSON" 0 "u").1 = stFix ∧
    (lookupA "c1" stFix.clients).map ClientRecord.readyState =
      some WsReadyState.wsopen :=
  ⟨rfl, rfl, rfl, rfl, rfl⟩

/-! ## Liveness eviction (claim C7) -/

theorem mem_of_mem_eraseA {α : Type} {p : String × α} {k : String}
    {l : List (String × α)} (h : p ∈ eraseA k l) : p ∈ l := by
  induction l with
  | nil => simp [eraseA] at h
  | cons hd tl ih =>
      rcases hd with ⟨k1, v1⟩
      by_cases h1 : k1 = k
      · simp only [eraseA, if_pos h1] at h
        exact List.mem_cons_of_mem _ (ih h)
      · simp only [eraseA, if_neg h1] at h
        rcases List.mem_cons.mp h with h2 | h2
        · exact h2 ▸ List.mem_cons_self _ _
        · exact List.mem_cons_of_mem _ (ih h2)

theorem closeConnection_clients (st : ServerState) (x : String) :
    (closeConnection st x).clients = st.clients := by
  unfold closeConnection
  cases lookupA x st.connections <;> rfl

theorem closeConnection_sessions (st : ServerState) (x : String) :
    (closeConnection st x).sessions = st.sessions := by
  unfold closeConnection
  cases lookupA x st.connections <;> rfl

theorem closeConnection_clientToSession (st : ServerState) (x : String) :
    (closeConnection st x).clientToSession = st.clientToSession := by
  unfold closeConnection
  cases lookupA x st.connections <;> rfl

/-- Teardown of the target client (the disconnect path) removes the
client record, both session map entries, and the upstream connection. -/
theorem handleClientDisconnect_removes (st : ServerState) (c sid : String)
    (sess : Session)
    (Hcs : lookupA c st.clientToSession = some sid)
    (Hs : lookupA sid st.sessions = some sess)
    (Hown : sess.clientId = c)
    (Hconn : sess.openaiConnectionId ≠ "") :
    EvictAbsent (handleClientDisconnect st c) c sid
      sess.openaiConnectionId := by
  unfold EvictAbsent handleClientDisconnect closeClientSessions closeSession
  simp only [Hcs, Hs]
  rw [if_pos Hconn]
  refine ⟨?_, ?_, ?_, ?_⟩
  · rw [closeConnection_clients]
    simp [lookupA_eraseA]
  · rw [closeConnection_clientToSession, Hown]
    simp [lookupA_eraseA]
  · simp [lookupA_eraseA]
  · unfold closeConnection
    cases hC : lookupA sess.openaiConnectionId st.connections with
    | none => exact hC
    | some cr => simp [lookupA_eraseA]

/-- Teardown of any client preserves the absence of the target's
entries (every map is only ever filtered). -/
theorem handleClientDisconnect_preserves_none (st : ServerState)
    (a : String) {c sid connId : String}
    (H : EvictAbsent st c sid connId) :
    EvictAbsent (handleClientDisconnect st a) c sid connId := by
  obtain ⟨h1, h2, h3, h4⟩ := H
  unfold EvictAbsent handleClientDisconnect closeClientSessions closeSession
  cases hA : lookupA a st.clientToSession with
  | none => exact ⟨by simp [lookupA_eraseA, h1], h2, h3, h4⟩
  | some sidA =>
      dsimp only
      cases hSA : lookupA sidA st.sessions with
      | none => exact ⟨by simp [lookupA_eraseA, h1], h2, h3, h4⟩
      | some sA =>
          dsimp only
          split
          · refine ⟨?_, ?_, ?_, ?_⟩
            · rw [closeConnection_clients]
              simp [lookupA_eraseA, h1]
            · rw [closeConnection_clientToSession]
              simp [lookupA_eraseA, h2]
            · rw [closeConnection_sessions]
              simp [lookupA_eraseA, h3]
            · unfold closeConnection
              cases hC : lookupA sA.openaiConnectionId st.connections with
              | none => exact h4
              | some cr => simp [lookupA_eraseA, h4]
          · exact ⟨by simp [lookupA_eraseA, h1],
              by simp [lookupA_eraseA, h2], by simp [lookupA_eraseA, h3], h4⟩

/-- Teardown of a DIFFERENT client preserves the target's registry
invariants. -/
theorem handleClientDisconnect_preserves_invariant (st : ServerState)
    (a c sid : String) (sess : Session) (hne : a ≠ c)
    (H : EvictionInvariant st c sid sess) :
    EvictionInvariant (handleClientDisconnect st a) c sid sess := by
  obtain ⟨Hcs, Hs, I1, I2⟩ := H
  unfold EvictionInvariant handleClientDisconnect closeClientSessions
    closeSession
  cases hA : lookupA a st.clientToSession with
  | none => exact ⟨Hcs, Hs, I1, I2⟩
  | some sidA =>
      dsimp only
      have hsidA : sidA ≠ sid := by
        intro hEq
        exact hne (I1 (a, sidA) (lookupA_mem hA) hEq)
      cases hSA : lookupA sidA st.sessions with
      | none => exact ⟨Hcs, Hs, I1, I2⟩
      | some sA =>
          dsimp only
          have hsAc : sA.clientId ≠ c := by
            intro hEq
            exact hsidA (I2 (sidA, sA) (lookupA_mem hSA) hEq)
          have hcs2 : ¬ c = sA.clientId := fun hh => hsAc hh.symm
          have hss2 : ¬ sid = sidA := fun hh => hsidA hh.symm
          split
          · refine ⟨?_, ?_, ?_, ?_⟩
            · rw [closeConnection_clientToSession]
              simp [lookupA_eraseA, hcs2, Hcs]
            · rw [closeConnection_sessions]
              simp [lookupA_eraseA, hss2, Hs]
            · rw [closeConnection_clientToSession]
              intro p hp
              exact I1 p (mem_of_mem_eraseA hp)
            · rw [closeConnection_sessions]
              intro p hp
              exact I2 p (mem_of_mem_eraseA hp)
          · refine ⟨?_, ?_, ?_, ?_⟩
            · simp [lookupA_eraseA, hcs2, Hcs]
            · simp [lookupA_eraseA, hss2, Hs]
            · intro p hp
              exact I1 p (mem_of_mem_eraseA hp)
            · intro p hp
              exact I2 p (mem_of_mem_eraseA hp)

/-- One sweep step on a different client preserves the invariants. -/
theorem stepClient_preserves_invariant (now : ℤ) (st : ServerState)
    (e : String × ClientRecord) (c sid : String) (sess : Session)
    (hne : e.1 ≠ c) (H : EvictionInvariant st c sid sess) :
    EvictionInvariant (stepClient now st e) c sid sess := by
  unfold stepClient
  split
  · split
    · exact handleClientDisconnect_preserves_invariant st e.1 c sid sess hne H
    · exact H
  · split
    · exact handleClientDisconnect_preserves_invariant st e.1 c sid sess hne H
    · exact H

/-- One sweep step on any client preserves absence. -/
theorem stepClient_preserves_none (now : ℤ) (st : ServerState)
    (e : String × ClientRecord) {c sid connId : String}
    (H : EvictAbsent st c sid connId) :
    EvictAbsent (stepClient now st e) c sid connId := by
  unfold stepClient
  split
  · split
    · exact handleClientDisconnect_preserves_none st e.1 H
    · exact H
  · split
    · exact handleClientDisconnect_preserves_none st e.1 H
    · exact H

/-- The sweep step on the target client, when its eviction condition
holds, runs the common disconnect teardown and removes everything. -/
theorem stepClient_evicts (now : ℤ) (st : ServerState) (c : String)
    (rec : ClientRecord) (sid : String) (sess : Session)
    (hnc : rec.readyState ≠ WsReadyState.connecting)
    (hevict : rec.readyState = WsReadyState.wsopen →
      rec.lastPong ≠ 0 ∧ now - rec.lastPong > 60000)
    (Hcs : lookupA c st.clientToSession = some sid)
    (Hs : lookupA sid st.sessions = some sess)
    (Hown : sess.clientId = c)
    (Hconn : sess.openaiConnectionId ≠ "") :
    EvictAbsent (stepClient now st (c, rec)) c sid
      sess.openaiConnectionId := by
  unfold stepClient
  by_cases hro : rec.readyState = WsReadyState.wsopen
  · rw [if_pos hro, if_pos (hevict hro)]
    exact handleClientDisconnect_removes st c sid sess Hcs Hs Hown Hconn
  · rw [if_neg hro, if_pos hnc]
    exact handleClientDisconnect_removes st c sid sess Hcs Hs Hown Hconn

/-- Folding the sweep over any client list that contains the target
(uniquely, up to its record) ends with the target fully evicted. -/
theorem foldl_evicts (now : ℤ) (c : String) (rec : ClientRecord)
    (sid : String) (sess : Session)
    (Hown : sess.clientId = c) (Hconn : sess.openaiConnectionId ≠ "")
    (hnc : rec.readyState ≠ WsReadyState.connecting)
    (hevict : rec.readyState = WsReadyState.wsopen →
      rec.lastPong ≠ 0 ∧ now - rec.lastPong > 60000) :
    ∀ (l : List (String × ClientRecord)) (st : ServerState),
      (∀ p ∈ l, p.1 = c → p.2 = rec) →
      (((c, rec) ∈ l ∧ EvictionInvariant st c sid sess) ∨
        EvictAbsent st c sid sess.openaiConnectionId) →
      EvictAbsent (l.foldl (stepClient now) st) c sid
        sess.openaiConnectionId
  | [], st, _, hstart => by
      rcases hstart with ⟨hmem, _⟩ | hq
      · exact absurd hmem (List.not_mem_nil _)
      · exact hq
  | (a, r) :: l2, st, hu, hstart => by
      simp only [List.foldl_cons]
      apply foldl_evicts now c rec sid sess Hown Hconn hnc hevict l2
        (stepClient now st (a, r))
        (fun p hp hc => hu p (List.mem_cons_of_mem _ hp) hc)
      rcases hstart with ⟨hmem, hinv⟩ | hq
      · by_cases hac : a = c
        · subst hac
          have hr : r = rec := hu (a, r) (List.mem_cons_self _ _) rfl
          subst hr
          right
          obtain ⟨Hcs, Hs, _, _⟩ := hinv
          exact stepClient_evicts now st a r sid sess hnc hevict Hcs Hs
            Hown Hconn
        · rcases List.mem_cons.mp hmem with hhead | htail
          · have : c = a := (Prod.mk.injEq _ _ _ _ ▸ hhead).1
            exact absurd this.symm hac
          · left
            exact ⟨htail,
              stepClient_preserves_invariant now st (a, r) c sid sess hac hinv⟩
      · right
        exact stepClient_preserves_none now st (a, r) hq

/-- C7: a tracked client whose transport is past CONNECTING and that
either has a stale liveness acknowledgment (more than 60 000 ms before
the sweep time) or a transport no longer OPEN is evicted by the ping
sweep through the common disconnect teardown: afterwards its client
record, both session map entries, and its upstream connection entry are
all gone. -/
theorem pingCheck_evicts (st : ServerState) (now : ℤ) (c : String)
    (rec : ClientRecord) (sid : String) (sess : Session)
    (hmem : (c, rec) ∈ st.clients)
    (huniq : ∀ p ∈ st.clients, p.1 = c → p.2 = rec)
    (hnc : rec.readyState ≠ WsReadyState.connecting)
    (hstale : (rec.lastPong ≠ 0 ∧ now - rec.lastPong > 60000) ∨
      rec.readyState ≠ WsReadyState.wsopen)
    (Hcs : lookupA c st.clientToSession = some sid)
    (Hs : lookupA sid st.sessions = some sess)
    (Hown : sess.clientId = c)
    (Hconn : sess.openaiConnectionId ≠ "")
    (I1 : ∀ p ∈ st.clientToSession, p.2 = sid → p.1 = c)
    (I2 : ∀ p ∈ st.sessions, (p.2).clientId = c → p.1 = sid) :
    EvictAbsent (pingCheck st now) c sid sess.openaiConnectionId := by
  have hevict : rec.readyState = WsReadyState.wsopen →
      rec.lastPong ≠ 0 ∧ now - rec.lastPong > 60000 := by
    intro hro
    rcases hstale with h | h
    · exact h
    · exact absurd hro h
  exact foldl_evicts now c rec sid sess Hown Hconn hnc hevict st.clients st
    huniq (Or.inl ⟨hmem, ⟨Hcs, Hs, I1, I2⟩⟩)

theorem pingCheck_evicts_witness :
    ("c1", ({ readyState := WsReadyState.wsopen, lastPong := 1 } :
        ClientRecord)) ∈ stFix.clients ∧
    (∀ p ∈ stFix.clients, p.1 = "c1" →
      p.2 = ({ readyState := WsReadyState.wsopen, lastPong := 1 } :
        ClientRecord)) ∧
    (({ readyState := WsReadyState.wsopen, lastPong := 1 } :
        ClientRecord).readyState ≠ WsReadyState.connecting) ∧
    ((({ readyState := WsReadyState.wsopen, lastPong := 1 } :
        ClientRecord).lastPong ≠ 0 ∧
      (70000 : ℤ) - ({ readyState := WsReadyState.wsopen, lastPong := 1 } :
        ClientRecord).lastPong > 60000) ∨
      ({ readyState := WsReadyState.wsopen, lastPong := 1 } :
        ClientRecord).readyState ≠ WsReadyState.wsopen) ∧
    sessFix.clientId = "c1" ∧ sessFix.openaiConnectionId ≠ "" ∧
    EvictAbsent (pingCheck stFix 70000) "c1" "s1"
      sessFix.openaiConnectionId :=
  ⟨by decide, by decide, by decide, by decide, rfl, by decide,
   pingCheck_evicts stFix 70000 "c1"
     { readyState := WsReadyState.wsopen, lastPong := 1 } "s1" sessFix
     (by decide) (by decide) (by decide) (by decide) rfl rfl rfl (by decide)
     (by decide) (by decide)⟩

end RTS
